import Mathlib

/-!
# Verification of the rider-service matching engine and fare calculator

Shallow embedding of `src/allocation.py`, `src/pricing.py` and the data model of
`src/models.py`.  Machine floats of the source are modelled as rationals (`ℚ`)
for the data/fare layer and as reals (`ℝ`) for the trigonometric distance
primitive.  Timestamps are rationals measured in minutes, so Python's
`(b - a).total_seconds() / 60` becomes `b - a`.  The distance primitive
(`haversine` in both source files) is passed to the allocation and fare
functions as an explicit parameter `geo`, mirroring the spec's GeoDistance
collaborator; the source instantiates it with the haversine function modelled
separately below over `ℝ`.
-/

namespace RiderService

/-- The distance primitive (lat1 lon1 lat2 lon2 ↦ km), the dependency both
`allocation.py` and `pricing.py` call `haversine`. -/
abbrev Geo := ℚ → ℚ → ℚ → ℚ → ℚ

/-- Model of `models.py` class `Driver` (columns of table `drivers`). -/
structure Driver where
  id : ℕ
  latitude : ℚ
  longitude : ℚ
  available : Bool
  active_ride_id : Option ℕ
  cancelled_rides_count : ℕ
  last_ride_end_time : Option ℚ
  deriving Repr, DecidableEq

/-- Model of `models.py` class `Ride` (columns of table `rides`).  `distance_km` and
`fare` have column default `0.0`; `0` plays the role of "unset". -/
structure Ride where
  id : ℕ
  rider_id : ℕ
  driver_id : Option ℕ
  pickup_lat : ℚ
  pickup_long : ℚ
  drop_lat : ℚ
  drop_long : ℚ
  status : String
  created_at : ℚ
  driver_assigned_at : Option ℚ
  driver_at_location_at : Option ℚ
  start_ride_at : Option ℚ
  end_ride_at : Option ℚ
  distance_km : ℚ
  fare : ℚ
  deriving Repr, DecidableEq

/-- The two tables the allocator reads and writes. -/
structure DB where
  rides : List Ride
  drivers : List Driver
  deriving Repr, DecidableEq

/-- Pending-ride query `Ride.query.filter_by(status="create_ride").order_by(Ride.created_at).all()`
(allocation.py line 28).  The sort by creation time is modelled by a stable
merge sort on `created_at`. -/
def pendingRides (db : DB) : List Ride :=
  (db.rides.filter (fun r => decide (r.status = "create_ride"))).mergeSort
    (fun a b => decide (a.created_at ≤ b.created_at))

/-- Available-driver query `Driver.query.filter_by(available=True).all()` (allocation.py line 39). -/
def availableDrivers (db : DB) : List Driver :=
  db.drivers.filter (fun d => d.available)

/-- Python truthiness of an optional integer id:
`if driver.active_ride_id:` is taken when the field is neither `None` nor `0`. -/
def truthyId : Option ℕ → Bool
  | none => false
  | some i => decide (i ≠ 0)

/-- The recent-pairing query of rule 2 (allocation.py lines 52-58): a ride row
with this driver, this rider, status `"end_ride"` and
`end_ride_at > now − 30min` exists.  A SQL comparison against a NULL
`end_ride_at` is not satisfied, hence the `none` branch. -/
def recentRideExists (db : DB) (now : ℚ) (driverId riderId : ℕ) : Bool :=
  db.rides.any (fun r =>
    decide (r.driver_id = some driverId) && decide (r.rider_id = riderId) &&
    decide (r.status = "end_ride") &&
    (match r.end_ride_at with
     | some t => decide (now - 30 < t)
     | none => false))

/-- The `excluded_drivers` counter dict (allocation.py line 41). -/
structure Tally where
  active_ride : ℕ
  recent_ride : ℕ
  cancelled_rides : ℕ
  out_of_range : ℕ
  deriving Repr, DecidableEq

/-- Sum of the four exclusion counters. -/
def Tally.total (t : Tally) : ℕ :=
  t.active_ride + t.recent_ride + t.cancelled_rides + t.out_of_range

/-- One step of the driver loop (allocation.py lines 43-81): apply the four
rules to driver `d`, either appending `(d, dist)` to the eligible list or
bumping the matching exclusion counter. -/
def scanStep (geo : Geo) (db : DB) (now : ℚ) (ride : Ride) (radius : ℕ)
    (acc : List (Driver × ℚ) × Tally) (d : Driver) : List (Driver × ℚ) × Tally :=
  if truthyId d.active_ride_id then
    (acc.1, { acc.2 with active_ride := acc.2.active_ride + 1 })
  else if recentRideExists db now d.id ride.rider_id then
    (acc.1, { acc.2 with recent_ride := acc.2.recent_ride + 1 })
  else if 2 ≤ d.cancelled_rides_count then
    (acc.1, { acc.2 with cancelled_rides := acc.2.cancelled_rides + 1 })
  else
    let dist := geo ride.pickup_lat ride.pickup_long d.latitude d.longitude
    if dist ≤ (radius : ℚ) then (acc.1 ++ [(d, dist)], acc.2)
    else (acc.1, { acc.2 with out_of_range := acc.2.out_of_range + 1 })

/-- The full driver loop at one radius: eligible drivers with their distances,
plus the exclusion tally. -/
def scanDrivers (geo : Geo) (db : DB) (now : ℚ) (ride : Ride) (radius : ℕ) :
    List (Driver × ℚ) × Tally :=
  (availableDrivers db).foldl (scanStep geo db now ride radius) ([], ⟨0, 0, 0, 0⟩)

/-- Selection `eligible_drivers.sort(key=lambda x: x[1])` followed by taking
`eligible_drivers[0]` (allocation.py lines 86-88).  Python's sort is stable,
modelled by `List.mergeSort` on the distance component. -/
def selectClosest (elig : List (Driver × ℚ)) : Option (Driver × ℚ) :=
  (elig.mergeSort (fun a b => decide (a.2 ≤ b.2))).head?

/-- Reference characterisation of `selectClosest` used in proofs: the first
list entry attaining the minimal distance (later entries replace the current
best only when strictly closer). -/
def firstMinBy : List (Driver × ℚ) → Option (Driver × ℚ)
  | [] => none
  | x :: xs =>
    match firstMinBy xs with
    | none => some x
    | some m => some (if m.2 < x.2 then m else x)

/-- What the source logs per radius iteration: the available pool size, the
eligible count, and the exclusion tally (allocation.py lines 40, 83-84). -/
structure RadiusLog where
  pool : ℕ
  eligible : ℕ
  tally : Tally
  deriving Repr, DecidableEq

/-- The radius expansion loop (allocation.py lines 37-95): starting at
`SEARCH_EXPANSION_KM = 2`, while `radius ≤ MAX_SEARCH_RADIUS_KM = 20` and no
driver has been assigned, scan the available pool, select the closest eligible
driver if any, otherwise grow the radius by 2.  The loop runs at most 10
iterations; `fuel` is a structural bound that the initial call sets above 10,
so it never cuts the loop short. -/
def searchRadii (geo : Geo) (db : DB) (now : ℚ) (ride : Ride) :
    ℕ → ℕ → Option (Driver × ℚ) × List RadiusLog
  | 0, _ => (none, [])
  | fuel + 1, radius =>
    if 20 < radius then (none, [])
    else
      let scanned := scanDrivers geo db now ride radius
      let log : RadiusLog := ⟨(availableDrivers db).length, scanned.1.length, scanned.2⟩
      match selectClosest scanned.1 with
      | some sel => (some sel, [log])
      | none =>
        let rest := searchRadii geo db now ride fuel (radius + 2)
        (rest.1, log :: rest.2)

/-- The whole search for one ride: radius 2, 4, …, 20. -/
def searchForRide (geo : Geo) (db : DB) (now : ℚ) (ride : Ride) :
    Option (Driver × ℚ) × List RadiusLog :=
  searchRadii geo db now ride 11 2

/-- The ride-side half of the assignment commit (allocation.py lines 98-100):
the row with the processed ride's id gets the driver, the assignment time and
status `"driver_assigned"`. -/
def updateRide (now : ℚ) (driverId rideId : ℕ) (r : Ride) : Ride :=
  if r.id = rideId then
    { r with driver_id := some driverId, driver_assigned_at := some now,
             status := "driver_assigned" }
  else r

/-- The driver-side half of the commit (allocation.py lines 101-102): the row
with the selected driver's id becomes unavailable and holds the ride. -/
def updateDriver (rideId driverId : ℕ) (d : Driver) : Driver :=
  if d.id = driverId then { d with available := false, active_ride_id := some rideId }
  else d

/-- What the source logs per processed ride: the ride id, whether a driver was
assigned (`SUCCESS`/`FAILED` log lines), and the per-radius statistics. -/
structure RideLog where
  ride_id : ℕ
  assigned : Bool
  radii : List RadiusLog
  deriving Repr, DecidableEq

/-- Processing of one pending ride (allocation.py lines 31-105): run the radius
search; on a match commit the four-field update (`db.session.commit()` is per
ride, inside the loop), recording the assignment event `(ride.id, driver.id)`. -/
def processRide (geo : Geo) (now : ℚ) (db : DB) (ride : Ride) :
    DB × Option (ℕ × ℕ) × RideLog :=
  let found := searchForRide geo db now ride
  match found.1 with
  | some sel =>
    ({ rides := db.rides.map (updateRide now sel.1.id ride.id),
       drivers := db.drivers.map (updateDriver ride.id sel.1.id) },
     some (ride.id, sel.1.id), ⟨ride.id, true, found.2⟩)
  | none => (db, none, ⟨ride.id, false, found.2⟩)

/-- The ride loop of a pass, processing a given list of rides in order. -/
def runRides (geo : Geo) (now : ℚ) (db : DB) :
    List Ride → DB × List (ℕ × ℕ) × List RideLog
  | [] => (db, [], [])
  | r :: rs =>
    let step := processRide geo now db r
    let rest := runRides geo now step.1 rs
    (rest.1, step.2.1.toList ++ rest.2.1, step.2.2 :: rest.2.2)

/-- What one pass logs: the scanned-ride count (allocation.py line 29) and the
per-ride logs. -/
structure PassLog where
  scanned : ℕ
  rideLogs : List RideLog
  deriving Repr, DecidableEq

/-- One allocation pass, `allocate_drivers()` (allocation.py lines 24-112):
scan the pending rides oldest-first and process each in turn.  The single
`now` stands for the `datetime.utcnow()` calls made during the pass.  Besides
the final database state the embedding returns the list of committed
assignment events `(ride id, driver id)` and the pass log. -/
def allocateDrivers (geo : Geo) (now : ℚ) (db : DB) :
    DB × List (ℕ × ℕ) × PassLog :=
  let rides := pendingRides db
  let res := runRides geo now db rides
  (res.1, res.2.1, ⟨rides.length, res.2.2⟩)

/-! ## Error handling of a pass (allocation.py lines 26, 108-112)

The whole ride loop runs inside `try: … except Exception: logger.error(…);
db.session.rollback()` with commits issued per ride inside the loop.  An
exception raised while ride number `k` (0-based) is being evaluated aborts the
loop; the rollback discards only that ride's uncommitted session writes — the
assignments of rides `0 … k-1` were already committed — and the handler does
not re-raise, so the caller sees a normal return. -/

/-- State of the database after the first `k` pending rides of a pass were
fully processed and committed. -/
def allocateDriversUpTo (geo : Geo) (now : ℚ) (db : DB) (k : ℕ) : DB :=
  (runRides geo now db ((pendingRides db).take k)).1

/-- A pass in which a data-access exception fires while ride `k` is being
evaluated, before that ride's commit.  First component: the resulting database
(earlier per-ride commits are durable, the failing ride's writes are rolled
back).  Second component: whether an exception escapes to the caller — the
`except` clause logs and swallows it, so this is `false`. -/
def allocateDriversFailAt (geo : Geo) (now : ℚ) (db : DB) (k : ℕ) : DB × Bool :=
  (allocateDriversUpTo geo now db k, false)

/-- Modelled from the spec: the `AllocationReport` of §4.3/§6, a value the
source never constructs (`allocate_drivers` has no `return` statement). -/
structure AllocationReport where
  ridesScanned : ℕ
  ridesAssigned : ℕ
  ridesUnmatched : ℕ
  exclusionTallies : Tally
  deriving Repr, DecidableEq

/-- The Python return value of `allocate_drivers()`: the function body contains
no `return` statement, so every invocation evaluates to `None`; in particular
no `AllocationReport` is ever handed back to the scheduler. -/
def allocateDriversReturn (_geo : Geo) (_now : ℚ) (_db : DB) :
    Option AllocationReport := none

/-! ## Fare calculation (`src/pricing.py`) -/

/-- The `pricing_config` key-value table (`models.py` class `PricingConfig`);
the numeric content of the string-typed `value` column is modelled directly
as a rational. -/
structure RateConfig where
  entries : List (String × ℚ)
  deriving Repr, DecidableEq

/-- Rate lookup `get_rate(key, default)` (pricing.py lines 15-18):
`PricingConfig.query.filter_by(key=key).first()`, falling back to the default
when the key is absent. -/
def getRate (cfg : RateConfig) (key : String) (default : ℚ) : ℚ :=
  match cfg.entries.find? (fun e => decide (e.1 = key)) with
  | some e => e.2
  | none => default

/-- Python's `round` to a whole number: round half to even (banker's
rounding), the documented behaviour of the builtin used at pricing.py
line 86. -/
def pyRound (q : ℚ) : ℤ :=
  if q - ⌊q⌋ < 1 / 2 then ⌊q⌋
  else if 1 / 2 < q - ⌊q⌋ then ⌊q⌋ + 1
  else if ⌊q⌋ % 2 = 0 then ⌊q⌋ else ⌊q⌋ + 1

/-- Two-decimal rounding `round(fare, 2)` of Python. -/
def round2 (q : ℚ) : ℚ := (pyRound (q * 100) : ℚ) / 100

/-- Modelled from the spec: "rounded to two decimal places (standard half-up
rounding)" (§4.4 step 6).  For the non-negative totals at issue, half-up
coincides with `⌊100·q + 1/2⌋ / 100`. -/
def roundHalfUp2 (q : ℚ) : ℚ := ((⌊q * 100 + 1 / 2⌋ : ℤ) : ℚ) / 100

/-- The value `calculate_fare` produces: the mutated (and committed) ride row,
the four fare components the source sets as attributes on the in-memory object
(`ride.base_fare` etc., which are not columns of the `rides` table), and the
function's return value. -/
structure FareResult where
  ride : Ride
  base_fare : ℚ
  distance_fare : ℚ
  time_fare : ℚ
  waiting_fare : ℚ
  returned : ℚ
  deriving Repr, DecidableEq

/-- Distance used by the fare calculation (pricing.py lines 35-42): recomputed
through `geo` when the stored `distance_km` is unset (Python:
`not ride.distance_km or ride.distance_km == 0`, i.e. zero), otherwise the
cached value. -/
def usedDistance (geo : Geo) (ride : Ride) : ℚ :=
  if ride.distance_km = 0 then
    geo ride.pickup_lat ride.pickup_long ride.drop_lat ride.drop_long
  else ride.distance_km

/-- Ride duration in minutes (pricing.py lines 48-52): difference of the end
and start timestamps, `0` when either is absent; a negative difference is not
clamped. -/
def durationMin (ride : Ride) : ℚ :=
  match ride.start_ride_at, ride.end_ride_at with
  | some s, some e => e - s
  | _, _ => 0

/-- Waiting time in minutes (pricing.py lines 54-58): difference of the start
and driver-arrival timestamps, `0` when either is absent; a negative
difference is not clamped. -/
def waitingMin (ride : Ride) : ℚ :=
  match ride.driver_at_location_at, ride.start_ride_at with
  | some a, some s => s - a
  | _, _ => 0

/-- Fare computation `calculate_fare(ride)` (pricing.py lines 20-87).  Rates come from the
key-value store with defaults 20/10/2/1.  The row's `fare` column receives
`round(fare, 2)` and is committed; the function returns the unrounded
`fare`. -/
def calculateFare (geo : Geo) (cfg : RateConfig) (ride : Ride) : FareResult :=
  let base_fare := getRate cfg "base_fare" 20
  let rate_per_km := getRate cfg "rate_per_km" 10
  let rate_per_minute := getRate cfg "rate_per_minute" 2
  let waiting_charge_per_minute := getRate cfg "waiting_charge_per_minute" 1
  let distance_km := usedDistance geo ride
  let duration_min := durationMin ride
  let waiting_min := waitingMin ride
  let base_fare_component := base_fare
  let distance_fare_component := distance_km * rate_per_km
  let time_fare_component := duration_min * rate_per_minute
  let waiting_fare_component := waiting_min * waiting_charge_per_minute
  let fare := base_fare_component + distance_fare_component +
    time_fare_component + waiting_fare_component
  { ride := { ride with distance_km := distance_km, fare := round2 fare },
    base_fare := base_fare_component,
    distance_fare := distance_fare_component,
    time_fare := time_fare_component,
    waiting_fare := waiting_fare_component,
    returned := fare }

/-! ## The distance primitive (`haversine`, identical in both source files) -/

/-- Degree-to-radian conversion `math.radians`. -/
noncomputable def radians (x : ℝ) : ℝ := x * (Real.pi / 180)

/-- Model of `math.atan2(y, x)`, restricted by the source to non-negative arguments
(both are square roots); the definition covers the full convention anyway. -/
noncomputable def atan2 (y x : ℝ) : ℝ :=
  if 0 < x then Real.arctan (y / x)
  else if x < 0 ∧ 0 ≤ y then Real.arctan (y / x) + Real.pi
  else if x < 0 ∧ y < 0 then Real.arctan (y / x) - Real.pi
  else if x = 0 ∧ 0 < y then Real.pi / 2
  else if x = 0 ∧ y < 0 then -(Real.pi / 2)
  else 0

/-- Distance primitive `haversine(lat1, lon1, lat2, lon2)` (allocation.py lines 15-22 and
pricing.py lines 6-13): great-circle distance on a sphere of radius 6371 km. -/
noncomputable def haversine (lat1 lon1 lat2 lon2 : ℝ) : ℝ :=
  let phi1 := radians lat1
  let phi2 := radians lat2
  let dphi := radians (lat2 - lat1)
  let dlambda := radians (lon2 - lon1)
  let a := Real.sin (dphi / 2) ^ 2 +
    Real.cos phi1 * Real.cos phi2 * Real.sin (dlambda / 2) ^ 2
  6371 * (2 * atan2 (Real.sqrt a) (Real.sqrt (1 - a)))

/-- Every driver row carrying this id is unavailable. -/
def driversUnavailable (db : DB) (did : ℕ) : Prop :=
  ∀ d ∈ db.drivers, d.id = did → d.available = false

/-- The pairing invariant of an assignment (spec §4.3): a ride marked
`"driver_assigned"` has a driver row that is unavailable and holds exactly
this ride. -/
def assignedConsistent (db : DB) : Prop :=
  ∀ r ∈ db.rides, r.status = "driver_assigned" →
    ∃ d ∈ db.drivers, r.driver_id = some d.id ∧ d.available = false ∧
      d.active_ride_id = some r.id

/-! ## Concrete fixtures used by witnesses and counterexamples -/

/-- A concrete instantiation of the distance primitive for closed statements
in which the distance values themselves are what matters: every pair of points
is at distance `0`. -/
def geoZero : Geo := fun _ _ _ _ => 0

/-- An empty `pricing_config` table: every rate resolves to its default. -/
def emptyCfg : RateConfig := ⟨[]⟩

/-- A template ride used by concrete statements. -/
def baseRide : Ride :=
  { id := 1, rider_id := 1, driver_id := none,
    pickup_lat := 0, pickup_long := 0, drop_lat := 0, drop_long := 0,
    status := "end_ride", created_at := 0,
    driver_assigned_at := none, driver_at_location_at := none,
    start_ride_at := none, end_ride_at := none,
    distance_km := 0, fare := 0 }

/-- Counterexample ride for C5: cached distance `0.0125 km`. -/
def rideC5 : Ride := { baseRide with distance_km := 1 / 80 }

/-- Counterexample ride for C4: cached distance `1 km`. -/
def rideC4 : Ride := { baseRide with distance_km := 1 }

/-- Rate table A for C4: total `30` split as base `20` + distance `10`. -/
def cfgA : RateConfig := ⟨[("base_fare", 20), ("rate_per_km", 10)]⟩

/-- Rate table B for C4: the same total `30` split as base `10` + distance
`20`. -/
def cfgB : RateConfig := ⟨[("base_fare", 10), ("rate_per_km", 20)]⟩

/-- Counterexample ride for C6: the driver-arrival timestamp (minute 40) lies
after the ride start (minute 10), so the waiting component is negative. -/
def rideC6 : Ride :=
  { baseRide with
    distance_km := 1,
    start_ride_at := some 10,
    end_ride_at := some 10,
    driver_at_location_at := some 40 }

/-- Witness ride for C6: well-ordered timestamps, everything non-negative. -/
def rideC6w : Ride :=
  { baseRide with
    distance_km := 5,
    driver_at_location_at := some 5,
    start_ride_at := some 10,
    end_ride_at := some 25 }

/-- A driver template for concrete statements. -/
def baseDriver : Driver :=
  { id := 1, latitude := 0, longitude := 0, available := true,
    active_ride_id := none, cancelled_rides_count := 0,
    last_ride_end_time := none }

/-- C1 counterexample driver listed first in the pool: the higher id `2`. -/
def drvA : Driver := { baseDriver with id := 2 }

/-- C1 counterexample driver listed second in the pool: the lower id `1`. -/
def drvB : Driver := { baseDriver with id := 1 }

/-- C1 counterexample state: two available drivers at the same location,
enumerated with the higher id first. -/
def dbC1 : DB := ⟨[], [drvA, drvB]⟩

/-- C1 witness state: a single available driver. -/
def dbC1w : DB := ⟨[], [drvB]⟩

/-- C7 witness: a completed ride of driver 1 with rider 1, ended at minute 95
(within 30 minutes of `now = 100`). -/
def r0end : Ride :=
  { baseRide with
    id := 20,
    rider_id := 1,
    driver_id := some 1,
    status := "end_ride",
    end_ride_at := some 95 }

/-- C7 witness: a pending ride of the same rider 1. -/
def p3 : Ride := { baseRide with id := 21, rider_id := 1, status := "create_ride" }

/-- C7 witness state: driver 1 is available and at the pickup point, but is in
the 30-minute cooldown with rider 1. -/
def dbC7w : DB := ⟨[r0end, p3], [baseDriver]⟩

/-- C8 witness: the older pending ride (created at minute 0). -/
def p1w : Ride :=
  { baseRide with id := 30, rider_id := 1, status := "create_ride", created_at := 0 }

/-- C8 witness: the younger pending ride (created at minute 1). -/
def p2w : Ride :=
  { baseRide with id := 31, rider_id := 2, status := "create_ride", created_at := 1 }

/-- C8 witness state: the rides table lists the younger ride first, and a
single available driver can serve either ride. -/
def dbC8w : DB := ⟨[p2w, p1w], [baseDriver]⟩

/-! # Theorems -/

/-! ## GeoDistance (claim C9) -/

theorem atan2_zero_one : atan2 0 1 = 0 := by
  simp [atan2]

theorem haversine_self (lat lon : ℝ) : haversine lat lon lat lon = 0 := by
  simp [haversine, radians, atan2_zero_one]

theorem haversine_comm (lat1 lon1 lat2 lon2 : ℝ) :
    haversine lat1 lon1 lat2 lon2 = haversine lat2 lon2 lat1 lon1 := by
  simp only [haversine, radians]
  have h1 : (lat1 - lat2) * (Real.pi / 180) = -((lat2 - lat1) * (Real.pi / 180)) := by
    ring
  have h2 : (lon1 - lon2) * (Real.pi / 180) = -((lon2 - lon1) * (Real.pi / 180)) := by
    ring
  rw [h1, h2]
  simp [neg_div, Real.sin_neg, mul_comm]

/-- C9, counterexample.  `distanceKm(A,B) == 0` does not force `A = B`: the
two distinct coordinate pairs `(90, 0)` and `(90, 90)` (both on the north
pole, different longitudes) are at haversine distance `0`, because
`cos(π/2) = 0` wipes out the longitude term. -/
theorem C9_pole_counterexample : haversine 90 0 90 90 = 0 ∧ (0 : ℝ) ≠ 90 := by
  constructor
  · simp only [haversine, radians]
    have h90 : (90 : ℝ) * (Real.pi / 180) = Real.pi / 2 := by ring
    rw [h90]
    simp [Real.cos_pi_div_two, atan2_zero_one]
  · norm_num

/-- C9, amended: the haversine distance is symmetric and vanishes on
identical coordinate pairs; the "zero only if identical" part of the claim is
dropped (it fails at the poles, see the counterexample). -/
theorem C9_haversine_symm_self :
    (∀ lat1 lon1 lat2 lon2 : ℝ,
      haversine lat1 lon1 lat2 lon2 = haversine lat2 lon2 lat1 lon1) ∧
    (∀ lat lon : ℝ, haversine lat lon lat lon = 0) :=
  ⟨haversine_comm, haversine_self⟩

/-! ## FareCalculator (claims C4, C5, C6) -/

theorem getRate_empty (key : String) (d : ℚ) : getRate emptyCfg key d = d := rfl

theorem getRate_cfgA (d1 d2 d3 : ℚ) :
    getRate cfgA "base_fare" d1 = 20 ∧ getRate cfgA "rate_per_km" d2 = 10 ∧
    getRate cfgA "rate_per_minute" d3 = d3 ∧
    getRate cfgA "waiting_charge_per_minute" d3 = d3 :=
  ⟨rfl, rfl, rfl, rfl⟩

theorem getRate_cfgB (d1 d2 d3 : ℚ) :
    getRate cfgB "base_fare" d1 = 10 ∧ getRate cfgB "rate_per_km" d2 = 20 ∧
    getRate cfgB "rate_per_minute" d3 = d3 ∧
    getRate cfgB "waiting_charge_per_minute" d3 = d3 :=
  ⟨rfl, rfl, rfl, rfl⟩

/-- C5, counterexample.  On a ride of `0.0125 km` with default rates the
component sum is `20.125`: the function returns the unrounded sum (not a
two-decimal value), the persisted `fare` is `20.12` (Python's round-half-to-
even), the spec's half-up rounding would give `20.13`, and the returned and
stored values differ from each other. -/
theorem round2_at_tie : round2 (161 / 8) = 2012 / 100 := by
  have h : (⌊(161 : ℚ) / 8 * 100⌋ : ℤ) = 2012 := by norm_num
  simp only [round2, pyRound, h]
  norm_num

theorem calculateFare_rideC5_fare :
    (calculateFare geoZero emptyCfg rideC5).ride.fare = round2 (161 / 8) := by
  norm_num [calculateFare, usedDistance, durationMin, waitingMin,
    rideC5, baseRide, geoZero, getRate_empty]

theorem C5_unrounded_return_counterexample :
    (calculateFare geoZero emptyCfg rideC5).returned = 161 / 8 ∧
    roundHalfUp2 (161 / 8) = 2013 / 100 ∧
    (calculateFare geoZero emptyCfg rideC5).ride.fare = 2012 / 100 ∧
    (calculateFare geoZero emptyCfg rideC5).returned ≠
      (calculateFare geoZero emptyCfg rideC5).ride.fare := by
  have h1 : (calculateFare geoZero emptyCfg rideC5).returned = 161 / 8 := by
    norm_num [calculateFare, usedDistance, durationMin, waitingMin,
      rideC5, baseRide, geoZero, getRate_empty]
  have h3 : (calculateFare geoZero emptyCfg rideC5).ride.fare = 2012 / 100 :=
    calculateFare_rideC5_fare.trans round2_at_tie
  refine ⟨h1, by norm_num [roundHalfUp2], h3, ?_⟩
  rw [h1, h3]
  norm_num

/-- C5, amended: the value `compute` returns is the exact (unrounded) sum of
the four components; only the `fare` column persisted on the ride receives the
two-decimal rounding, which is Python's round-half-to-even, not half-up. -/
theorem C5_total_sum_and_rounding (geo : Geo) (cfg : RateConfig) (ride : Ride) :
    (calculateFare geo cfg ride).returned =
      (calculateFare geo cfg ride).base_fare +
      (calculateFare geo cfg ride).distance_fare +
      (calculateFare geo cfg ride).time_fare +
      (calculateFare geo cfg ride).waiting_fare ∧
    (calculateFare geo cfg ride).ride.fare =
      round2 ((calculateFare geo cfg ride).returned) :=
  ⟨rfl, rfl⟩

/-- C4, counterexample.  Two rate tables that split the same total differently
produce identical persisted ride rows but different fare breakdowns: the
breakdown attributes set by `calculate_fare` are not columns of the `rides`
table (`models.py` lines 23-39), so the persisted record does not retain
them. -/
theorem C4_breakdown_not_persisted_counterexample :
    (calculateFare geoZero cfgA rideC4).ride =
      (calculateFare geoZero cfgB rideC4).ride ∧
    (calculateFare geoZero cfgA rideC4).base_fare ≠
      (calculateFare geoZero cfgB rideC4).base_fare := by
  refine ⟨?_, ?_⟩ <;>
    norm_num [calculateFare, usedDistance, durationMin, waitingMin,
      rideC4, baseRide, geoZero, (getRate_cfgA 20 10 2).1, (getRate_cfgA 20 10 2).2.1,
      (getRate_cfgA 20 10 2).2.2.1, (getRate_cfgA 20 10 1).2.2.2,
      (getRate_cfgB 20 10 2).1, (getRate_cfgB 20 10 2).2.1,
      (getRate_cfgB 20 10 2).2.2.1, (getRate_cfgB 20 10 1).2.2.2]

/-- C4, amended: the persisted ride row is the input row with exactly the
distance cache and the rounded total fare updated; the four components are
only attached to the in-memory result (the source's non-column attributes),
not persisted. -/
theorem C4_persisted_fields (geo : Geo) (cfg : RateConfig) (ride : Ride) :
    (calculateFare geo cfg ride).ride =
      { ride with
          distance_km := usedDistance geo ride,
          fare := round2 ((calculateFare geo cfg ride).base_fare +
            (calculateFare geo cfg ride).distance_fare +
            (calculateFare geo cfg ride).time_fare +
            (calculateFare geo cfg ride).waiting_fare) } :=
  rfl

/-- C6, counterexample.  A ride with non-negative distance (`1 km`) and
non-negative duration (`0 min`) whose driver-arrival timestamp lies after the
ride start gets a negative waiting component (`−30 min`), and the total fare
`0` drops below the base rate `20`. -/
theorem C6_negative_waiting_counterexample :
    0 ≤ usedDistance geoZero rideC6 ∧ 0 ≤ durationMin rideC6 ∧
    (calculateFare geoZero emptyCfg rideC6).returned <
      getRate emptyCfg "base_fare" 20 := by
  refine ⟨?_, ?_, ?_⟩ <;>
    norm_num [calculateFare, getRate, usedDistance, durationMin, waitingMin,
      rideC6, baseRide, geoZero, emptyCfg]

/-- C6, amended: when the distance used, the duration, and additionally the
waiting time are all non-negative, and the three per-unit rates resolve to
non-negative values, the computed total is at least the base rate. -/
theorem C6_total_ge_base (geo : Geo) (cfg : RateConfig) (ride : Ride)
    (hd : 0 ≤ usedDistance geo ride) (ht : 0 ≤ durationMin ride)
    (hw : 0 ≤ waitingMin ride)
    (h1 : 0 ≤ getRate cfg "rate_per_km" 10)
    (h2 : 0 ≤ getRate cfg "rate_per_minute" 2)
    (h3 : 0 ≤ getRate cfg "waiting_charge_per_minute" 1) :
    getRate cfg "base_fare" 20 ≤ (calculateFare geo cfg ride).returned := by
  have e : (calculateFare geo cfg ride).returned =
      getRate cfg "base_fare" 20 +
      usedDistance geo ride * getRate cfg "rate_per_km" 10 +
      durationMin ride * getRate cfg "rate_per_minute" 2 +
      waitingMin ride * getRate cfg "waiting_charge_per_minute" 1 := rfl
  rw [e]
  have p1 := mul_nonneg hd h1
  have p2 := mul_nonneg ht h2
  have p3 := mul_nonneg hw h3
  linarith

/-! ## Selection of the closest eligible driver (claim C1) -/

theorem distLE_trans : ∀ a b c : Driver × ℚ,
    (fun a b : Driver × ℚ => decide (a.2 ≤ b.2)) a b = true →
    (fun a b : Driver × ℚ => decide (a.2 ≤ b.2)) b c = true →
    (fun a b : Driver × ℚ => decide (a.2 ≤ b.2)) a c = true := by
  intro a b c hab hbc
  simp only [decide_eq_true_eq] at *
  exact le_trans hab hbc

theorem distLE_total : ∀ a b : Driver × ℚ,
    ((fun a b : Driver × ℚ => decide (a.2 ≤ b.2)) a b ||
     (fun a b : Driver × ℚ => decide (a.2 ≤ b.2)) b a) = true := by
  intro a b
  simp only [Bool.or_eq_true, decide_eq_true_eq]
  exact le_total a.2 b.2

theorem firstMinBy_eq_none : ∀ l : List (Driver × ℚ), firstMinBy l = none ↔ l = [] := by
  intro l
  cases l with
  | nil => simp [firstMinBy]
  | cons a xs =>
    simp only [firstMinBy]
    cases firstMinBy xs <;> simp

/-- The sort-then-take-head selection of the source equals the first minimum
of the eligible list, by stability of the sort. -/
theorem selectClosest_eq_firstMinBy (l : List (Driver × ℚ)) :
    selectClosest l = firstMinBy l := by
  induction l with
  | nil => simp [selectClosest, firstMinBy]
  | cons a l ih =>
    obtain ⟨l₁, l₂, h₁, h₂, h₃⟩ :=
      List.mergeSort_cons distLE_trans distLE_total a l
    have hs := List.sorted_mergeSort distLE_trans distLE_total (a :: l)
    rw [h₁] at hs
    simp only [selectClosest] at ih ⊢
    rw [h₁]
    cases l₁ with
    | nil =>
      simp only [List.nil_append, List.head?_cons]
      rw [List.nil_append] at h₂
      rw [h₂] at ih
      simp only [firstMinBy]
      cases hl₂ : l₂ with
      | nil =>
        rw [hl₂] at ih
        simp only [List.head?_nil] at ih
        rw [← ih]
      | cons m l₂' =>
        rw [hl₂] at ih
        simp only [List.head?_cons] at ih
        rw [← ih]
        have ham : (fun a b : Driver × ℚ => decide (a.2 ≤ b.2)) a m = true := by
          rw [hl₂] at hs
          exact List.rel_of_pairwise_cons hs (List.mem_cons_self m l₂')
        simp only [decide_eq_true_eq] at ham
        simp [not_lt.mpr ham]
    | cons b l₁' =>
      simp only [List.cons_append, List.head?_cons]
      rw [h₂] at ih
      simp only [List.cons_append, List.head?_cons] at ih
      simp only [firstMinBy]
      rw [← ih]
      have hba := h₃ b (List.mem_cons_self b l₁')
      simp only [Bool.not_eq_true', decide_eq_false_iff_not, not_le] at hba
      simp [hba]

/-- The function `firstMinBy` returns a minimal entry and everything listed before it is
strictly farther. -/
theorem firstMinBy_spec : ∀ (l : List (Driver × ℚ)) (x : Driver × ℚ),
    firstMinBy l = some x →
    (∀ e ∈ l, x.2 ≤ e.2) ∧ ∃ l₁ l₂, l = l₁ ++ x :: l₂ ∧ ∀ e ∈ l₁, x.2 < e.2 := by
  intro l
  induction l with
  | nil => intro x h; simp [firstMinBy] at h
  | cons a l ih =>
    intro x hx
    simp only [firstMinBy] at hx
    cases h : firstMinBy l with
    | none =>
      rw [h] at hx
      have hl : l = [] := (firstMinBy_eq_none l).mp h
      subst hl
      simp only [Option.some.injEq] at hx
      subst hx
      refine ⟨by simp, [], [], by simp, by simp⟩
    | some m =>
      rw [h] at hx
      simp only [Option.some.injEq] at hx
      obtain ⟨hmin, l₁', l₂', hdec, hfront⟩ := ih m h
      by_cases hlt : m.2 < a.2
      · rw [if_pos hlt] at hx
        subst hx
        constructor
        · intro e he
          rcases List.mem_cons.mp he with rfl | he'
          · exact le_of_lt hlt
          · exact hmin e he'
        · refine ⟨a :: l₁', l₂', by rw [hdec]; rfl, ?_⟩
          intro e he
          rcases List.mem_cons.mp he with rfl | he'
          · exact hlt
          · exact hfront e he'
      · rw [if_neg hlt] at hx
        subst hx
        constructor
        · intro e he
          rcases List.mem_cons.mp he with rfl | he'
          · exact le_refl _
          · exact le_trans (not_lt.mp hlt) (hmin e he')
        · exact ⟨[], l, by simp, by simp⟩

/-- C1, counterexample.  Two eligible drivers at exactly equal distance, with
the higher driver id listed first in the available pool: the matcher selects
the first-listed driver (id 2), not the one with the lowest id (id 1) — the
stable sort keys on distance only, and the pool order is whatever the driver
query returns. -/
theorem C1_tie_not_lowest_id_counterexample :
    (scanDrivers geoZero dbC1 0 baseRide 2).1 = [(drvA, 0), (drvB, 0)] ∧
    drvB.id < drvA.id ∧
    selectClosest (scanDrivers geoZero dbC1 0 baseRide 2).1 = some (drvA, 0) := by
  have hscan : (scanDrivers geoZero dbC1 0 baseRide 2).1 = [(drvA, 0), (drvB, 0)] := by
    norm_num [scanDrivers, availableDrivers, scanStep, dbC1, drvA, drvB,
      baseDriver, baseRide, geoZero, truthyId, recentRideExists, List.filter]
  refine ⟨hscan, by norm_num [drvA, drvB, baseDriver], ?_⟩
  rw [hscan, selectClosest_eq_firstMinBy]
  norm_num [firstMinBy]

/-- C1, amended: when the eligible set at the current radius is non-empty the
matcher selects an eligible driver of minimal distance, and among drivers at
exactly equal minimal distance it selects the one listed first in the
available-driver pool enumeration (Python's stable sort keys on distance
only), which need not be the lowest driver id. -/
theorem C1_selects_first_minimum (geo : Geo) (db : DB) (now : ℚ) (ride : Ride)
    (radius : ℕ) (h : (scanDrivers geo db now ride radius).1 ≠ []) :
    ∃ sel l₁ l₂,
      selectClosest (scanDrivers geo db now ride radius).1 = some sel ∧
      (∀ e ∈ (scanDrivers geo db now ride radius).1, sel.2 ≤ e.2) ∧
      (scanDrivers geo db now ride radius).1 = l₁ ++ sel :: l₂ ∧
      (∀ e ∈ l₁, sel.2 < e.2) := by
  cases hm : firstMinBy (scanDrivers geo db now ride radius).1 with
  | none => exact absurd ((firstMinBy_eq_none _).mp hm) h
  | some sel =>
    obtain ⟨hmin, l₁, l₂, hdec, hfront⟩ := firstMinBy_spec _ sel hm
    exact ⟨sel, l₁, l₂, (selectClosest_eq_firstMinBy _).trans hm, hmin, hdec, hfront⟩

theorem C1_selects_first_minimum_witness :
    (scanDrivers geoZero dbC1w 0 baseRide 2).1 ≠ [] ∧
    (∃ sel l₁ l₂,
      selectClosest (scanDrivers geoZero dbC1w 0 baseRide 2).1 = some sel ∧
      (∀ e ∈ (scanDrivers geoZero dbC1w 0 baseRide 2).1, sel.2 ≤ e.2) ∧
      (scanDrivers geoZero dbC1w 0 baseRide 2).1 = l₁ ++ sel :: l₂ ∧
      (∀ e ∈ l₁, sel.2 < e.2)) :=
  ⟨by norm_num [scanDrivers, availableDrivers, scanStep, dbC1w, drvB,
      baseDriver, baseRide, geoZero, truthyId, recentRideExists, List.filter],
    C1_selects_first_minimum geoZero dbC1w 0 baseRide 2
      (by norm_num [scanDrivers, availableDrivers, scanStep, dbC1w, drvB,
        baseDriver, baseRide, geoZero, truthyId, recentRideExists, List.filter])⟩

/-! ## Facts about the driver scan and the radius search -/

theorem scanFold_mem (geo : Geo) (db : DB) (now : ℚ) (ride : Ride) (radius : ℕ)
    (ds : List Driver) :
    ∀ (acc : List (Driver × ℚ) × Tally) (p : Driver × ℚ),
      p ∈ (ds.foldl (scanStep geo db now ride radius) acc).1 →
      p ∈ acc.1 ∨
        (p.1 ∈ ds ∧ truthyId p.1.active_ride_id = false ∧
         recentRideExists db now p.1.id ride.rider_id = false ∧
         p.1.cancelled_rides_count < 2 ∧
         p.2 = geo ride.pickup_lat ride.pickup_long p.1.latitude p.1.longitude ∧
         p.2 ≤ (radius : ℚ)) := by
  induction ds with
  | nil => intro acc p h; exact Or.inl h
  | cons d ds ih =>
    intro acc p h
    simp only [List.foldl_cons] at h
    rcases ih _ p h with h1 | h2
    · simp only [scanStep] at h1
      by_cases c1 : truthyId d.active_ride_id
      · rw [if_pos c1] at h1
        exact Or.inl h1
      · rw [if_neg c1] at h1
        by_cases c2 : recentRideExists db now d.id ride.rider_id
        · rw [if_pos c2] at h1
          exact Or.inl h1
        · rw [if_neg c2] at h1
          by_cases c3 : 2 ≤ d.cancelled_rides_count
          · rw [if_pos c3] at h1
            exact Or.inl h1
          · rw [if_neg c3] at h1
            by_cases c4 :
                geo ride.pickup_lat ride.pickup_long d.latitude d.longitude ≤ (radius : ℚ)
            · rw [if_pos c4] at h1
              rcases List.mem_append.mp h1 with ha | hb
              · exact Or.inl ha
              · have hp : p = (d, geo ride.pickup_lat ride.pickup_long d.latitude d.longitude) := by
                  simpa using hb
                subst hp
                refine Or.inr ⟨List.mem_cons_self _ _, ?_, ?_, ?_, rfl, c4⟩
                · simpa using c1
                · simpa using c2
                · simpa using Nat.lt_of_not_le c3
            · rw [if_neg c4] at h1
              exact Or.inl h1
    · exact Or.inr ⟨List.mem_cons_of_mem _ h2.1, h2.2⟩

/-- Any entry of the eligible list at a given radius is an available driver
that passed the three exclusion rules, paired with its distance, which is
within the radius. -/
theorem scanDrivers_mem (geo : Geo) (db : DB) (now : ℚ) (ride : Ride) (radius : ℕ)
    (p : Driver × ℚ) (h : p ∈ (scanDrivers geo db now ride radius).1) :
    p.1 ∈ availableDrivers db ∧ truthyId p.1.active_ride_id = false ∧
    recentRideExists db now p.1.id ride.rider_id = false ∧
    p.1.cancelled_rides_count < 2 ∧
    p.2 = geo ride.pickup_lat ride.pickup_long p.1.latitude p.1.longitude ∧
    p.2 ≤ (radius : ℚ) := by
  rcases scanFold_mem geo db now ride radius (availableDrivers db) _ p h with h1 | h2
  · simp at h1
  · exact h2

theorem selectClosest_mem (l : List (Driver × ℚ)) (p : Driver × ℚ)
    (h : selectClosest l = some p) : p ∈ l := by
  have hm : p ∈ l.mergeSort (fun a b => decide (a.2 ≤ b.2)) :=
    List.mem_of_mem_head? h
  exact List.mem_mergeSort.mp hm

/-- A driver returned by the radius loop was selected from the eligible list
of some radius. -/
theorem searchRadii_selected (geo : Geo) (db : DB) (now : ℚ) (ride : Ride) :
    ∀ (fuel radius : ℕ) (sel : Driver × ℚ),
      (searchRadii geo db now ride fuel radius).1 = some sel →
      ∃ ρ, radius ≤ ρ ∧ sel ∈ (scanDrivers geo db now ride ρ).1 := by
  intro fuel
  induction fuel with
  | zero => intro radius sel h; simp [searchRadii] at h
  | succ fuel ih =>
    intro radius sel h
    simp only [searchRadii] at h
    by_cases hr : 20 < radius
    · rw [if_pos hr] at h
      simp at h
    · rw [if_neg hr] at h
      cases hsel : selectClosest (scanDrivers geo db now ride radius).1 with
      | some q =>
        rw [hsel] at h
        simp only [Option.some.injEq] at h
        subst h
        exact ⟨radius, le_refl _, selectClosest_mem _ _ hsel⟩
      | none =>
        rw [hsel] at h
        simp only at h
        obtain ⟨ρ, hρ, hm⟩ := ih (radius + 2) sel h
        exact ⟨ρ, by omega, hm⟩

/-- The driver committed for a ride is an available driver of the scanned pool
that passed all three non-distance exclusion rules. -/
theorem searchForRide_selected (geo : Geo) (db : DB) (now : ℚ) (ride : Ride)
    (sel : Driver × ℚ) (h : (searchForRide geo db now ride).1 = some sel) :
    sel.1 ∈ db.drivers ∧ sel.1.available = true ∧
    truthyId sel.1.active_ride_id = false ∧
    recentRideExists db now sel.1.id ride.rider_id = false ∧
    sel.1.cancelled_rides_count < 2 := by
  obtain ⟨ρ, _, hm⟩ := searchRadii_selected geo db now ride 11 2 sel h
  obtain ⟨hav, h1, h2, h3, _⟩ := scanDrivers_mem geo db now ride ρ sel hm
  have := List.mem_filter.mp hav
  exact ⟨this.1, this.2, h1, h2, h3⟩

/-! ## Facts about processing a ride and running a pass -/

/-- The shape of `processRide`: either no driver was found and the database is
untouched, or the selected driver's and the ride's rows are updated
together. -/
theorem processRide_cases (geo : Geo) (now : ℚ) (db : DB) (ride : Ride) :
    ((searchForRide geo db now ride).1 = none ∧
      processRide geo now db ride =
        (db, none, ⟨ride.id, false, (searchForRide geo db now ride).2⟩)) ∨
    ∃ sel, (searchForRide geo db now ride).1 = some sel ∧
      processRide geo now db ride =
        ({ rides := db.rides.map (updateRide now sel.1.id ride.id),
           drivers := db.drivers.map (updateDriver ride.id sel.1.id) },
         some (ride.id, sel.1.id), ⟨ride.id, true, (searchForRide geo db now ride).2⟩) := by
  cases h : (searchForRide geo db now ride).1 with
  | none => exact Or.inl ⟨rfl, by simp [processRide, h]⟩
  | some sel => exact Or.inr ⟨sel, rfl, by simp [processRide, h]⟩

theorem updateRide_id (now : ℚ) (did rid : ℕ) (r : Ride) :
    (updateRide now did rid r).id = r.id := by
  simp only [updateRide]
  split <;> rfl

theorem updateDriver_id (rid did : ℕ) (d : Driver) :
    (updateDriver rid did d).id = d.id := by
  simp only [updateDriver]
  split <;> rfl

theorem driversUnavailable_preserved (geo : Geo) (now : ℚ) (db : DB) (ride : Ride)
    (did : ℕ) (h : driversUnavailable db did) :
    driversUnavailable (processRide geo now db ride).1 did := by
  rcases processRide_cases geo now db ride with ⟨_, he⟩ | ⟨sel, _, he⟩
  · rw [he]
    exact h
  · rw [he]
    intro d' hd' hid
    obtain ⟨d, hd, rfl⟩ := List.mem_map.mp hd'
    by_cases hc : d.id = sel.1.id
    · simp [updateDriver, hc]
    · have hfix : updateDriver ride.id sel.1.id d = d := by
        simp [updateDriver, hc]
      rw [hfix] at hid ⊢
      exact h d hd hid

/-- Committing an assignment makes every driver row carrying the selected id
unavailable. -/
theorem driversUnavailable_after_commit (drivers : List Driver) (rid did : ℕ) :
    ∀ d' ∈ drivers.map (updateDriver rid did), d'.id = did → d'.available = false := by
  intro d' hd' hid
  obtain ⟨d, _, rfl⟩ := List.mem_map.mp hd'
  rw [updateDriver_id] at hid
  simp [updateDriver, hid]

/-- A driver id that is unavailable everywhere stays unavailable for the rest
of the pass and is never the driver of a later assignment event. -/
theorem runRides_unavail_not_selected (geo : Geo) (now : ℚ) :
    ∀ (rs : List Ride) (db : DB) (did : ℕ), driversUnavailable db did →
      driversUnavailable (runRides geo now db rs).1 did ∧
      did ∉ (runRides geo now db rs).2.1.map Prod.snd := by
  intro rs
  induction rs with
  | nil => intro db did h; exact ⟨h, by simp [runRides]⟩
  | cons r rs ih =>
    intro db did h
    have hpres := driversUnavailable_preserved geo now db r did h
    have hrec := ih (processRide geo now db r).1 did hpres
    rcases processRide_cases geo now db r with ⟨_, he⟩ | ⟨sel, hs, he⟩
    · rw [he] at hrec
      simp only [runRides, he]
      exact ⟨hrec.1, by simpa using hrec.2⟩
    · have hne : sel.1.id ≠ did := by
        intro hcontra
        obtain ⟨hm, hav, _⟩ := searchForRide_selected geo db now r sel hs
        have hfalse := h sel.1 hm hcontra
        rw [hav] at hfalse
        exact Bool.noConfusion hfalse
      rw [he] at hrec
      simp only [runRides, he]
      refine ⟨hrec.1, ?_⟩
      simp only [Option.toList_some, List.map_append, List.map_cons]
      intro hmem
      rcases List.mem_append.mp hmem with h1 | h2
      · simp at h1
        exact hne (h1.symm ▸ rfl)
      · exact hrec.2 h2

/-- Within one pass, the drivers of the committed assignment events are
pairwise distinct. -/
theorem runRides_events_nodup (geo : Geo) (now : ℚ) :
    ∀ (rs : List Ride) (db : DB),
      ((runRides geo now db rs).2.1.map Prod.snd).Nodup := by
  intro rs
  induction rs with
  | nil => intro db; simp [runRides]
  | cons r rs ih =>
    intro db
    rcases processRide_cases geo now db r with ⟨_, he⟩ | ⟨sel, hs, he⟩
    · simp only [runRides, he]
      simpa using ih db
    · simp only [runRides, he]
      simp only [Option.toList_some, List.map_append, List.map_cons,
        List.map_nil, List.nil_append, List.singleton_append]
      have hunav : driversUnavailable
          { rides := db.rides.map (updateRide now sel.1.id r.id),
            drivers := db.drivers.map (updateDriver r.id sel.1.id) } sel.1.id :=
        driversUnavailable_after_commit db.drivers r.id sel.1.id
      have hnot := (runRides_unavail_not_selected geo now rs _ sel.1.id hunav).2
      rw [List.nodup_cons]
      exact ⟨hnot, ih _⟩

/-- C10: within a single pass each driver is assigned to at most one ride —
the committed assignment events carry pairwise-distinct driver ids, because
the pool is re-queried for availability at each scan and a committed driver
is unavailable for the rest of the pass. -/
theorem C10_driver_assigned_at_most_once (geo : Geo) (now : ℚ) (db : DB) :
    ((allocateDrivers geo now db).2.1.map Prod.snd).Nodup :=
  runRides_events_nodup geo now (pendingRides db) db

/-! ## The recent-pairing cooldown (claim C7) -/

/-- A ride row whose id differs from the processed ride survives the commit
untouched. -/
theorem processRide_preserves_row (geo : Geo) (now : ℚ) (db : DB) (ride r0 : Ride)
    (h0 : r0 ∈ db.rides) (hne : r0.id ≠ ride.id) :
    r0 ∈ (processRide geo now db ride).1.rides := by
  rcases processRide_cases geo now db ride with ⟨_, he⟩ | ⟨sel, _, he⟩
  · rw [he]
    exact h0
  · rw [he]
    refine List.mem_map.mpr ⟨r0, h0, ?_⟩
    simp [updateRide, hne]

/-- Every assignment event of a pass names one of the processed rides. -/
theorem runRides_events_ride_ids (geo : Geo) (now : ℚ) :
    ∀ (rs : List Ride) (db : DB) (ev : ℕ × ℕ), ev ∈ (runRides geo now db rs).2.1 →
      ev.1 ∈ rs.map Ride.id := by
  intro rs
  induction rs with
  | nil => intro db ev h; simp [runRides] at h
  | cons r rs ih =>
    intro db ev h
    rcases processRide_cases geo now db r with ⟨_, he⟩ | ⟨sel, _, he⟩
    · simp only [runRides, he, Option.toList_none, List.nil_append] at h
      simp only [List.map_cons, List.mem_cons]
      exact Or.inr (ih _ ev h)
    · simp only [runRides, he, Option.toList_some, List.singleton_append] at h
      simp only [List.map_cons, List.mem_cons]
      rcases List.mem_cons.mp h with rfl | h2
      · exact Or.inl rfl
      · exact Or.inr (ih _ ev h2)

/-- A stored completed-ride row within the trailing 30 minutes makes the
recent-pairing query succeed. -/
theorem recentRideExists_of_row (db : DB) (now : ℚ) (did rid : ℕ) (r0 : Ride)
    (h : r0 ∈ db.rides) (h1 : r0.driver_id = some did) (h2 : r0.rider_id = rid)
    (h3 : r0.status = "end_ride") (h4 : ∃ t, r0.end_ride_at = some t ∧ now - 30 < t) :
    recentRideExists db now did rid = true := by
  obtain ⟨t, ht, hlt⟩ := h4
  refine List.any_eq_true.mpr ⟨r0, h, ?_⟩
  simp [h1, h2, h3, ht, hlt]

/-- Core induction for C7: as long as the witness completed-ride row is in the
table and its id collides with no processed ride, the cooldown driver is never
the driver of an assignment event for a ride of that rider. -/
theorem runRides_excludes_recent (geo : Geo) (now : ℚ) (did rid : ℕ) (r0 : Ride)
    (h1 : r0.driver_id = some did) (h2 : r0.rider_id = rid)
    (h3 : r0.status = "end_ride") (h4 : ∃ t, r0.end_ride_at = some t ∧ now - 30 < t) :
    ∀ (rs : List Ride) (db : DB), r0 ∈ db.rides →
      (∀ r ∈ rs, r.id ≠ r0.id) → (rs.map Ride.id).Nodup →
      ∀ r ∈ rs, r.rider_id = rid → (r.id, did) ∉ (runRides geo now db rs).2.1 := by
  intro rs
  induction rs with
  | nil => intro db _ _ _ r hr; simp at hr
  | cons q rs ih =>
    intro db hrow hne hnodup r hr hrid hmem
    simp only [List.map_cons, List.nodup_cons] at hnodup
    rcases processRide_cases geo now db q with ⟨_, he⟩ | ⟨sel, hs, he⟩
    · simp only [runRides, he, Option.toList_none, List.nil_append] at hmem
      rcases List.mem_cons.mp hr with rfl | hr'
      · have hin := runRides_events_ride_ids geo now rs db _ hmem
        exact hnodup.1 hin
      · exact ih db hrow (fun x hx => hne x (List.mem_cons_of_mem _ hx)) hnodup.2
          r hr' hrid hmem
    · simp only [runRides, he, Option.toList_some, List.singleton_append] at hmem
      have hrow₁ := processRide_preserves_row geo now db q r0 hrow
        (fun hcontra => hne q (List.mem_cons_self q rs) hcontra.symm)
      rw [he] at hrow₁
      rcases List.mem_cons.mp hmem with heq | hmem'
      · have hqid : r.id = q.id := congrArg Prod.fst heq
        have hdid : did = sel.1.id := congrArg Prod.snd heq
        rcases List.mem_cons.mp hr with rfl | hr'
        · have hsel := searchForRide_selected geo db now r sel hs
          have hrec : recentRideExists db now sel.1.id r.rider_id = false :=
            hsel.2.2.2.1
          rw [hrid, ← hdid] at hrec
          have htrue := recentRideExists_of_row db now did rid r0 hrow h1 h2 h3 h4
          rw [htrue] at hrec
          exact Bool.noConfusion hrec
        · have hin : r.id ∈ rs.map Ride.id := List.mem_map_of_mem _ hr'
          rw [hqid] at hin
          exact hnodup.1 hin
      · rcases List.mem_cons.mp hr with rfl | hr'
        · have hin := runRides_events_ride_ids geo now rs _ _ hmem'
          exact hnodup.1 hin
        · exact ih _ hrow₁ (fun x hx => hne x (List.mem_cons_of_mem _ hx)) hnodup.2
            r hr' hrid hmem'

/-- C7: a driver who completed a ride with the same rider within the trailing
30 minutes (a stored row with this driver, this rider, status `"end_ride"`
and completion time strictly after `now − 30`) is never the driver of an
assignment event for that rider's pending rides, regardless of distance. -/
theorem C7_cooldown_never_selected (geo : Geo) (now : ℚ) (db : DB)
    (did rid : ℕ) (r0 : Ride)
    (hids : (db.rides.map Ride.id).Nodup)
    (h0 : r0 ∈ db.rides) (h1 : r0.driver_id = some did) (h2 : r0.rider_id = rid)
    (h3 : r0.status = "end_ride")
    (h4 : ∃ t, r0.end_ride_at = some t ∧ now - 30 < t) :
    ∀ r ∈ pendingRides db, r.rider_id = rid →
      (r.id, did) ∉ (allocateDrivers geo now db).2.1 := by
  have hperm : List.Perm (pendingRides db)
      (db.rides.filter (fun r => decide (r.status = "create_ride"))) :=
    List.mergeSort_perm _ _
  have hsubs : ∀ r ∈ pendingRides db, r ∈ db.rides ∧ r.status = "create_ride" := by
    intro r hr
    have := List.mem_filter.mp (hperm.mem_iff.mp hr)
    exact ⟨this.1, by simpa using this.2⟩
  have hne : ∀ r ∈ pendingRides db, r.id ≠ r0.id := by
    intro r hr hcontra
    obtain ⟨hrm, hrs⟩ := hsubs r hr
    have hrr : r = r0 := List.inj_on_of_nodup_map hids hrm h0 hcontra
    rw [hrr, h3] at hrs
    exact absurd hrs (by decide)
  have hnodup : ((pendingRides db).map Ride.id).Nodup := by
    have hsub : List.Sublist ((db.rides.filter
        (fun r => decide (r.status = "create_ride"))).map Ride.id)
        (db.rides.map Ride.id) :=
      (List.filter_sublist db.rides).map Ride.id
    have hfil : ((db.rides.filter
        (fun r => decide (r.status = "create_ride"))).map Ride.id).Nodup :=
      hids.sublist hsub
    exact ((hperm.map Ride.id).nodup_iff).mpr hfil
  exact runRides_excludes_recent geo now did rid r0 h1 h2 h3 h4
    (pendingRides db) db h0 hne hnodup

theorem C7_cooldown_never_selected_witness :
    (dbC7w.rides.map Ride.id).Nodup ∧ r0end ∈ dbC7w.rides ∧
    p3 ∈ pendingRides dbC7w ∧ p3.rider_id = 1 ∧
    (p3.id, 1) ∉ (allocateDrivers geoZero 100 dbC7w).2.1 := by
  have hp3 : p3 ∈ pendingRides dbC7w := by
    have hfil : dbC7w.rides.filter
        (fun r => decide (r.status = "create_ride")) = [p3] := by decide
    simp [pendingRides, hfil]
  refine ⟨by decide, by decide, hp3, rfl, ?_⟩
  exact C7_cooldown_never_selected geoZero 100 dbC7w 1 1 r0end (by decide)
    (by decide) rfl rfl rfl ⟨95, rfl, by norm_num⟩ p3 hp3 rfl

/-! ## FIFO processing with a single driver (claim C8) -/

/-- A pending queue of exactly two rides, in whichever table order, is sorted
into ascending creation-time order. -/
theorem pendingRides_pair (db : DB) (r1 r2 : Ride)
    (hfil : db.rides.filter (fun r => decide (r.status = "create_ride")) = [r1, r2] ∨
            db.rides.filter (fun r => decide (r.status = "create_ride")) = [r2, r1])
    (horder : r1.created_at < r2.created_at) :
    pendingRides db = [r1, r2] := by
  have hsorted : List.Pairwise
      (fun a b : Ride => (fun a b : Ride => decide (a.created_at ≤ b.created_at)) a b)
      [r1, r2] := by
    refine List.Pairwise.cons ?_ (List.Pairwise.cons ?_ List.Pairwise.nil)
    · intro b hb
      rcases List.mem_singleton.mp hb with rfl
      simpa using le_of_lt horder
    · intro b hb
      simp at hb
  rcases hfil with hfil | hfil
  · rw [pendingRides, hfil]
    exact List.mergeSort_of_sorted hsorted
  · rw [pendingRides, hfil]
    have hperm : List.Perm
        ([r2, r1].mergeSort (fun a b => decide (a.created_at ≤ b.created_at)))
        [r1, r2] := by
      have h1 := List.mergeSort_perm [r2, r1]
        (fun a b : Ride => decide (a.created_at ≤ b.created_at))
      exact h1.trans (List.Perm.swap r1 r2 [])
    refine List.Perm.eq_of_sorted ?_ ?_ hsorted hperm
    · intro x y hx hy hxy hyx
      have hx' : x = r2 ∨ x = r1 := by
        have := (List.mergeSort_perm [r2, r1]
          (fun a b : Ride => decide (a.created_at ≤ b.created_at))).mem_iff.mp hx
        simpa using this
      have hy' : y = r1 ∨ y = r2 := by simpa using hy
      simp only [decide_eq_true_eq] at hxy hyx
      rcases hx' with rfl | rfl <;> rcases hy' with rfl | rfl
      · exact absurd hxy (not_le.mpr horder)
      · rfl
      · rfl
      · exact absurd hyx (not_le.mpr horder)
    · exact List.sorted_mergeSort
        (fun a b c hab hbc => by
          simp only [decide_eq_true_eq] at *
          exact le_trans hab hbc)
        (fun a b => by
          simp only [Bool.or_eq_true, decide_eq_true_eq]
          exact le_total a.created_at b.created_at)
        [r2, r1]

/-- With an empty available pool every radius yields an empty eligible list
and the search fails. -/
theorem searchRadii_no_drivers (geo : Geo) (db : DB) (now : ℚ) (ride : Ride)
    (h : availableDrivers db = []) :
    ∀ (fuel radius : ℕ), (searchRadii geo db now ride fuel radius).1 = none := by
  intro fuel
  induction fuel with
  | zero => intro radius; simp [searchRadii]
  | succ fuel ih =>
    intro radius
    have hscan : (scanDrivers geo db now ride radius).1 = [] := by
      simp [scanDrivers, h]
    have hsel : selectClosest (scanDrivers geo db now ride radius).1 = none := by
      rw [hscan]
      simp [selectClosest]
    simp only [searchRadii]
    by_cases hr : 20 < radius
    · rw [if_pos hr]
    · rw [if_neg hr]
      simp only [hsel]
      exact ih (radius + 2)

/-- Scanning a single-driver pool that passes the three non-distance rules:
the eligible list is the singleton or empty depending on the radius check. -/
theorem scanDrivers_single (geo : Geo) (db : DB) (now : ℚ) (ride : Ride)
    (radius : ℕ) (d : Driver)
    (havail : availableDrivers db = [d])
    (h1 : truthyId d.active_ride_id = false)
    (h2 : recentRideExists db now d.id ride.rider_id = false)
    (h3 : d.cancelled_rides_count < 2) :
    (scanDrivers geo db now ride radius).1 =
      if geo ride.pickup_lat ride.pickup_long d.latitude d.longitude ≤ (radius : ℚ)
      then [(d, geo ride.pickup_lat ride.pickup_long d.latitude d.longitude)]
      else [] := by
  have h3' : ¬ 2 ≤ d.cancelled_rides_count := Nat.not_le.mpr h3
  simp only [scanDrivers, havail, List.foldl_cons, List.foldl_nil, scanStep,
    h1, h2, h3', Bool.false_eq_true, if_false]
  split <;> simp

/-- The radius loop over a single eligible driver within 20 km finds the
driver at the first radius step that reaches it. -/
theorem searchRadii_single_success (geo : Geo) (db : DB) (now : ℚ) (ride : Ride)
    (d : Driver)
    (havail : availableDrivers db = [d])
    (h1 : truthyId d.active_ride_id = false)
    (h2 : recentRideExists db now d.id ride.rider_id = false)
    (h3 : d.cancelled_rides_count < 2)
    (hdist : geo ride.pickup_lat ride.pickup_long d.latitude d.longitude ≤ 20) :
    ∀ (fuel radius : ℕ), 2 * fuel + radius = 24 → radius ≤ 20 →
      (searchRadii geo db now ride fuel radius).1 =
        some (d, geo ride.pickup_lat ride.pickup_long d.latitude d.longitude) := by
  intro fuel
  induction fuel with
  | zero => intro radius hinv hr; omega
  | succ fuel ih =>
    intro radius hinv hr
    have hscan := scanDrivers_single geo db now ride radius d havail h1 h2 h3
    simp only [searchRadii, if_neg (by omega : ¬ 20 < radius)]
    by_cases hd : geo ride.pickup_lat ride.pickup_long d.latitude d.longitude ≤ (radius : ℚ)
    · rw [if_pos hd] at hscan
      have hsel : selectClosest (scanDrivers geo db now ride radius).1 =
          some (d, geo ride.pickup_lat ride.pickup_long d.latitude d.longitude) := by
        rw [hscan]
        simp [selectClosest]
      simp only [hsel]
    · rw [if_neg hd] at hscan
      have hsel : selectClosest (scanDrivers geo db now ride radius).1 = none := by
        rw [hscan]
        simp [selectClosest]
      simp only [hsel]
      have hlt : (radius : ℚ) <
          geo ride.pickup_lat ride.pickup_long d.latitude d.longitude :=
        not_le.mp hd
      have hr20 : (radius : ℚ) < 20 := lt_of_lt_of_le hlt hdist
      have hr20' : radius < 20 := by exact_mod_cast hr20
      exact ih (radius + 2) (by omega) (by omega)

/-- After committing the only available driver, the available pool is empty. -/
theorem availableDrivers_after_commit (db : DB) (rid : ℕ) (d : Driver)
    (havail : availableDrivers db = [d]) (drs : List Ride) :
    availableDrivers ⟨drs, db.drivers.map (updateDriver rid d.id)⟩ = [] := by
  rw [availableDrivers, List.filter_eq_nil_iff]
  intro x hx
  obtain ⟨d₀, hd₀, rfl⟩ := List.mem_map.mp hx
  by_cases hc : d₀.id = d.id
  · simp [updateDriver, hc]
  · have hfix : updateDriver rid d.id d₀ = d₀ := by simp [updateDriver, hc]
    rw [hfix]
    intro hav
    have : d₀ ∈ availableDrivers db := List.mem_filter.mpr ⟨hd₀, hav⟩
    rw [havail] at this
    simp at this
    exact hc (by rw [this])

/-- C8: with two pending rides created at t1 < t2 (in either table order) and
one available driver eligible for both, the pass processes the older ride
first and assigns it the driver; the younger ride finds an empty pool and
stays `"create_ride"`. -/
theorem C8_fifo_oldest_first (geo : Geo) (now : ℚ) (db : DB) (r1 r2 : Ride)
    (d : Driver)
    (hfil : db.rides.filter (fun r => decide (r.status = "create_ride")) = [r1, r2] ∨
            db.rides.filter (fun r => decide (r.status = "create_ride")) = [r2, r1])
    (horder : r1.created_at < r2.created_at)
    (hids : r1.id ≠ r2.id)
    (havail : availableDrivers db = [d])
    (h1 : truthyId d.active_ride_id = false)
    (hrec1 : recentRideExists db now d.id r1.rider_id = false)
    (h3 : d.cancelled_rides_count < 2)
    (hdist1 : geo r1.pickup_lat r1.pickup_long d.latitude d.longitude ≤ 20) :
    pendingRides db = [r1, r2] ∧
    (allocateDrivers geo now db).2.1 = [(r1.id, d.id)] ∧
    (allocateDrivers geo now db).1.rides = db.rides.map (updateRide now d.id r1.id) ∧
    (r2 ∈ (allocateDrivers geo now db).1.rides ∧ r2.status = "create_ride") := by
  have hp := pendingRides_pair db r1 r2 hfil horder
  have hsearch1 : (searchForRide geo db now r1).1 =
      some (d, geo r1.pickup_lat r1.pickup_long d.latitude d.longitude) :=
    searchRadii_single_success geo db now r1 d havail h1 hrec1 h3 hdist1 11 2
      (by norm_num) (by norm_num)
  have hstep1 : processRide geo now db r1 =
      (⟨db.rides.map (updateRide now d.id r1.id),
        db.drivers.map (updateDriver r1.id d.id)⟩,
       some (r1.id, d.id), ⟨r1.id, true, (searchForRide geo db now r1).2⟩) := by
    simp [processRide, hsearch1]
  have hempty : availableDrivers
      ⟨db.rides.map (updateRide now d.id r1.id),
        db.drivers.map (updateDriver r1.id d.id)⟩ = [] :=
    availableDrivers_after_commit db r1.id d havail _
  have hsearch2 : (searchForRide geo
      ⟨db.rides.map (updateRide now d.id r1.id),
        db.drivers.map (updateDriver r1.id d.id)⟩ now r2).1 = none :=
    searchRadii_no_drivers geo _ now r2 hempty 11 2
  have hstep2 : (processRide geo now
      ⟨db.rides.map (updateRide now d.id r1.id),
        db.drivers.map (updateDriver r1.id d.id)⟩ r2).1 =
      ⟨db.rides.map (updateRide now d.id r1.id),
        db.drivers.map (updateDriver r1.id d.id)⟩ ∧
      (processRide geo now
      ⟨db.rides.map (updateRide now d.id r1.id),
        db.drivers.map (updateDriver r1.id d.id)⟩ r2).2.1 = none := by
    rcases processRide_cases geo now
      ⟨db.rides.map (updateRide now d.id r1.id),
        db.drivers.map (updateDriver r1.id d.id)⟩ r2 with ⟨_, he⟩ | ⟨sel, hs, _⟩
    · rw [he]
      exact ⟨rfl, rfl⟩
    · rw [hsearch2] at hs
      exact Option.noConfusion hs
  have hr2mem : r2 ∈ db.rides := by
    have : r2 ∈ db.rides.filter (fun r => decide (r.status = "create_ride")) := by
      rcases hfil with hfil | hfil <;> rw [hfil] <;> simp
    exact (List.mem_filter.mp this).1
  have hr2status : r2.status = "create_ride" := by
    have : r2 ∈ db.rides.filter (fun r => decide (r.status = "create_ride")) := by
      rcases hfil with hfil | hfil <;> rw [hfil] <;> simp
    simpa using (List.mem_filter.mp this).2
  have hrun : allocateDrivers geo now db =
      (⟨db.rides.map (updateRide now d.id r1.id),
        db.drivers.map (updateDriver r1.id d.id)⟩,
       [(r1.id, d.id)],
       ⟨2, [⟨r1.id, true, (searchForRide geo db now r1).2⟩,
            (processRide geo now
              ⟨db.rides.map (updateRide now d.id r1.id),
                db.drivers.map (updateDriver r1.id d.id)⟩ r2).2.2]⟩) := by
    have e1 : allocateDrivers geo now db =
        ((runRides geo now db (pendingRides db)).1,
         (runRides geo now db (pendingRides db)).2.1,
         ⟨(pendingRides db).length,
          (runRides geo now db (pendingRides db)).2.2⟩) := rfl
    rw [e1, hp]
    simp only [runRides, hstep1]
    rcases processRide_cases geo now
      ⟨db.rides.map (updateRide now d.id r1.id),
        db.drivers.map (updateDriver r1.id d.id)⟩ r2 with ⟨_, he⟩ | ⟨sel, hs, _⟩
    · rw [he]
      simp [runRides]
    · rw [hsearch2] at hs
      exact Option.noConfusion hs
  have hne21 : r2.id ≠ r1.id := fun h => hids h.symm
  refine ⟨hp, ?_, ?_, ?_, hr2status⟩
  · rw [hrun]
  · rw [hrun]
  · rw [hrun]
    refine List.mem_map.mpr ⟨r2, hr2mem, ?_⟩
    simp [updateRide, hne21]

theorem C8_fifo_oldest_first_witness :
    dbC8w.rides.filter (fun r => decide (r.status = "create_ride")) = [p2w, p1w] ∧
    p1w.created_at < p2w.created_at ∧
    availableDrivers dbC8w = [baseDriver] ∧
    pendingRides dbC8w = [p1w, p2w] ∧
    (allocateDrivers geoZero 0 dbC8w).2.1 = [(p1w.id, baseDriver.id)] ∧
    (p2w ∈ (allocateDrivers geoZero 0 dbC8w).1.rides ∧
      p2w.status = "create_ride") := by
  have h := C8_fifo_oldest_first geoZero 0 dbC8w p1w p2w baseDriver
    (Or.inr (by decide)) (by norm_num [p1w, p2w, baseRide])
    (by decide) (by decide) rfl (by decide) (by decide)
    (by norm_num [geoZero])
  exact ⟨by decide, by norm_num [p1w, p2w, baseRide], by decide,
    h.1, h.2.1, h.2.2.2⟩

/-! ## Failure semantics of a pass (claim C3) -/

theorem processRide_drivers_ids (geo : Geo) (now : ℚ) (db : DB) (ride : Ride) :
    (processRide geo now db ride).1.drivers.map Driver.id =
      db.drivers.map Driver.id := by
  rcases processRide_cases geo now db ride with ⟨_, he⟩ | ⟨sel, _, he⟩
  · rw [he]
  · rw [he]
    rw [List.map_map]
    exact List.map_congr_left (fun d _ => updateDriver_id ride.id sel.1.id d)

/-- One committed assignment preserves the ride-driver pairing invariant:
the assigned ride and its driver are updated together, and no other assigned
ride can have been pointing at the (previously available) selected driver. -/
theorem processRide_preserves_assignedConsistent (geo : Geo) (now : ℚ)
    (db : DB) (ride : Ride)
    (hD : (db.drivers.map Driver.id).Nodup) (h : assignedConsistent db) :
    assignedConsistent (processRide geo now db ride).1 := by
  rcases processRide_cases geo now db ride with ⟨_, he⟩ | ⟨sel, hs, he⟩
  · rw [he]
    exact h
  · rw [he]
    intro r' hr' hst
    obtain ⟨r, hr, rfl⟩ := List.mem_map.mp hr'
    obtain ⟨hm, hav, _⟩ := searchForRide_selected geo db now ride sel hs
    by_cases hid : r.id = ride.id
    · refine ⟨updateDriver ride.id sel.1.id sel.1, List.mem_map_of_mem _ hm, ?_, ?_, ?_⟩
      · rw [updateDriver_id]
        simp [updateRide, hid]
      · simp [updateDriver]
      · rw [updateRide_id, hid]
        simp [updateDriver]
    · have hfix : updateRide now sel.1.id ride.id r = r := by
        simp [updateRide, hid]
      rw [hfix] at hst ⊢
      obtain ⟨d₀, hd₀, hdr, hdav, hact⟩ := h r hr hst
      by_cases hcol : d₀.id = sel.1.id
      · have heq : d₀ = sel.1 := List.inj_on_of_nodup_map hD hd₀ hm hcol
        rw [heq, hav] at hdav
        exact Bool.noConfusion hdav
      · have hfix2 : updateDriver ride.id sel.1.id d₀ = d₀ := by
          simp [updateDriver, hcol]
        refine ⟨updateDriver ride.id sel.1.id d₀, List.mem_map_of_mem _ hd₀, ?_, ?_, ?_⟩
        · rw [hfix2]
          exact hdr
        · rw [hfix2]
          exact hdav
        · rw [hfix2]
          exact hact

theorem runRides_preserves_assignedConsistent (geo : Geo) (now : ℚ) :
    ∀ (rs : List Ride) (db : DB), (db.drivers.map Driver.id).Nodup →
      assignedConsistent db → assignedConsistent (runRides geo now db rs).1 := by
  intro rs
  induction rs with
  | nil => intro db _ h; exact h
  | cons r rs ih =>
    intro db hD h
    have h1 := processRide_preserves_assignedConsistent geo now db r hD h
    have hD1 : ((processRide geo now db r).1.drivers.map Driver.id).Nodup := by
      rw [processRide_drivers_ids]
      exact hD
    exact ih (processRide geo now db r).1 hD1 h1

/-- C3, amended: a data-access error during ride `k` of a pass is logged and
swallowed (nothing propagates to the scheduler), the failing ride's
uncommitted writes are discarded, and — commits being per ride — the
assignments committed for the rides processed before the failure are
retained; the pairing invariant (no ride assigned without the matching driver
update) still holds in the resulting state. -/
theorem C3_failure_rollback (geo : Geo) (now : ℚ) (db : DB) (k : ℕ)
    (hD : (db.drivers.map Driver.id).Nodup) (h : assignedConsistent db) :
    (allocateDriversFailAt geo now db k).2 = false ∧
    (allocateDriversFailAt geo now db k).1 = allocateDriversUpTo geo now db k ∧
    assignedConsistent (allocateDriversFailAt geo now db k).1 :=
  ⟨rfl, rfl,
    runRides_preserves_assignedConsistent geo now ((pendingRides db).take k) db hD h⟩

theorem C3_failure_rollback_witness :
    (dbC8w.drivers.map Driver.id).Nodup ∧ assignedConsistent dbC8w ∧
    (allocateDriversFailAt geoZero 0 dbC8w 1).2 = false ∧
    assignedConsistent (allocateDriversFailAt geoZero 0 dbC8w 1).1 := by
  have hcons : assignedConsistent dbC8w := by
    intro r hr hst
    rcases List.mem_cons.mp hr with rfl | hr'
    · exact absurd hst (by decide)
    · rcases List.mem_cons.mp hr' with rfl | hr''
      · exact absurd hst (by decide)
      · simp at hr''
  have h := C3_failure_rollback geoZero 0 dbC8w 1 (by decide) hcons
  exact ⟨by decide, hcons, h.1, h.2.2⟩

/-- C3, counterexample.  Two pending rides, one available driver: a failure
while the second ride is being evaluated leaves the first ride's committed
assignment in place — the pass's writes are not all abandoned (the resulting
state differs from the starting state) — and no error is surfaced to the
caller. -/
theorem C3_partial_commit_counterexample :
    (allocateDriversFailAt geoZero 0 dbC8w 1).1 ≠ dbC8w ∧
    (allocateDriversFailAt geoZero 0 dbC8w 1).2 = false := by
  have hp := pendingRides_pair dbC8w p1w p2w (Or.inr (by decide))
    (by norm_num [p1w, p2w, baseRide])
  have hsearch1 : (searchForRide geoZero dbC8w 0 p1w).1 =
      some (baseDriver,
        geoZero p1w.pickup_lat p1w.pickup_long baseDriver.latitude
          baseDriver.longitude) :=
    searchRadii_single_success geoZero dbC8w 0 p1w baseDriver (by decide) rfl
      (by decide) (by decide) (by norm_num [geoZero]) 11 2 (by norm_num)
      (by norm_num)
  have hstep1 : (processRide geoZero 0 dbC8w p1w).1 =
      ⟨dbC8w.rides.map (updateRide 0 baseDriver.id p1w.id),
        dbC8w.drivers.map (updateDriver p1w.id baseDriver.id)⟩ := by
    simp [processRide, hsearch1]
  have hupto : allocateDriversUpTo geoZero 0 dbC8w 1 =
      ⟨dbC8w.rides.map (updateRide 0 baseDriver.id p1w.id),
        dbC8w.drivers.map (updateDriver p1w.id baseDriver.id)⟩ := by
    rw [allocateDriversUpTo, hp]
    simp only [List.take_succ_cons, List.take_zero, runRides, hstep1]
  refine ⟨?_, rfl⟩
  show allocateDriversUpTo geoZero 0 dbC8w 1 ≠ dbC8w
  rw [hupto]
  decide

/-! ## What a pass reports (claim C2) -/

theorem runRides_logs_length (geo : Geo) (now : ℚ) :
    ∀ (rs : List Ride) (db : DB),
      (runRides geo now db rs).2.2.length = rs.length := by
  intro rs
  induction rs with
  | nil => intro db; rfl
  | cons r rs ih =>
    intro db
    simp only [runRides, List.length_cons]
    rw [ih]

theorem runRides_assigned_count (geo : Geo) (now : ℚ) :
    ∀ (rs : List Ride) (db : DB),
      ((runRides geo now db rs).2.2.filter (fun l => l.assigned)).length =
        (runRides geo now db rs).2.1.length := by
  intro rs
  induction rs with
  | nil => intro db; rfl
  | cons r rs ih =>
    intro db
    rcases processRide_cases geo now db r with ⟨_, he⟩ | ⟨sel, _, he⟩
    · simp only [runRides, he, Option.toList_none, List.nil_append,
        List.filter_cons]
      simp only [Bool.false_eq_true, if_false]
      exact ih db
    · simp only [runRides, he, Option.toList_some, List.singleton_append,
        List.filter_cons]
      simp only [if_true, List.length_cons]
      rw [ih]

theorem filter_assigned_partition :
    ∀ l : List RideLog,
      (l.filter (fun x => x.assigned)).length +
        (l.filter (fun x => !x.assigned)).length = l.length := by
  intro l
  induction l with
  | nil => rfl
  | cons a l ih =>
    by_cases h : a.assigned <;> simp [List.filter_cons, h] <;> omega

theorem scanStep_length (geo : Geo) (db : DB) (now : ℚ) (ride : Ride) (radius : ℕ)
    (acc : List (Driver × ℚ) × Tally) (d : Driver) :
    (scanStep geo db now ride radius acc d).1.length +
      (scanStep geo db now ride radius acc d).2.total =
    acc.1.length + acc.2.total + 1 := by
  simp only [scanStep]
  by_cases c1 : truthyId d.active_ride_id
  · simp [c1, Tally.total]
    omega
  · simp only [c1, Bool.false_eq_true, if_false]
    by_cases c2 : recentRideExists db now d.id ride.rider_id
    · simp [c2, Tally.total]
      omega
    · simp only [c2, Bool.false_eq_true, if_false]
      by_cases c3 : 2 ≤ d.cancelled_rides_count
      · simp [c3, Tally.total]
        omega
      · simp only [c3, if_false]
        by_cases c4 :
            geo ride.pickup_lat ride.pickup_long d.latitude d.longitude ≤ (radius : ℚ)
        · simp [c4, Tally.total]
          omega
        · simp [c4, Tally.total]
          omega

theorem scanFold_length (geo : Geo) (db : DB) (now : ℚ) (ride : Ride) (radius : ℕ) :
    ∀ (ds : List Driver) (acc : List (Driver × ℚ) × Tally),
      (ds.foldl (scanStep geo db now ride radius) acc).1.length +
        (ds.foldl (scanStep geo db now ride radius) acc).2.total =
      acc.1.length + acc.2.total + ds.length := by
  intro ds
  induction ds with
  | nil => intro acc; rfl
  | cons d ds ih =>
    intro acc
    simp only [List.foldl_cons, List.length_cons]
    rw [ih (scanStep geo db now ride radius acc d),
      scanStep_length geo db now ride radius acc d]
    omega

/-- Per radius, every available driver is accounted for exactly once: it is
either eligible or tallied under exactly one exclusion reason. -/
theorem scanDrivers_conservation (geo : Geo) (db : DB) (now : ℚ) (ride : Ride)
    (radius : ℕ) :
    (scanDrivers geo db now ride radius).1.length +
      (scanDrivers geo db now ride radius).2.total =
    (availableDrivers db).length := by
  have h := scanFold_length geo db now ride radius (availableDrivers db)
    ([], ⟨0, 0, 0, 0⟩)
  simpa [Tally.total] using h

theorem searchRadii_logs (geo : Geo) (db : DB) (now : ℚ) (ride : Ride) :
    ∀ (fuel radius : ℕ), ∀ rl ∈ (searchRadii geo db now ride fuel radius).2,
      rl.eligible + rl.tally.total = rl.pool := by
  intro fuel
  induction fuel with
  | zero => intro radius rl h; simp [searchRadii] at h
  | succ fuel ih =>
    intro radius rl h
    simp only [searchRadii] at h
    by_cases hr : 20 < radius
    · rw [if_pos hr] at h
      simp at h
    · rw [if_neg hr] at h
      cases hsel : selectClosest (scanDrivers geo db now ride radius).1 with
      | some q =>
        rw [hsel] at h
        simp only [List.mem_singleton] at h
        subst h
        exact scanDrivers_conservation geo db now ride radius
      | none =>
        rw [hsel] at h
        simp only [List.mem_cons] at h
        rcases h with rfl | h2
        · exact scanDrivers_conservation geo db now ride radius
        · exact ih (radius + 2) rl h2

theorem runRides_radius_logs (geo : Geo) (now : ℚ) :
    ∀ (rs : List Ride) (db : DB), ∀ lg ∈ (runRides geo now db rs).2.2,
      ∀ rl ∈ lg.radii, rl.eligible + rl.tally.total = rl.pool := by
  intro rs
  induction rs with
  | nil => intro db lg h; simp [runRides] at h
  | cons r rs ih =>
    intro db lg h rl hrl
    rcases processRide_cases geo now db r with ⟨_, he⟩ | ⟨sel, _, he⟩ <;>
      simp only [runRides, he, List.mem_cons] at h <;>
      rcases h with rfl | h2
    · exact searchRadii_logs geo db now r 11 2 rl hrl
    · exact ih db lg h2 rl hrl
    · exact searchRadii_logs geo db now r 11 2 rl hrl
    · exact ih _ lg h2 rl hrl

/-- C2, counterexample.  The pass hands no `AllocationReport` back to the
scheduler: `allocate_drivers` has no `return` statement, so its value on any
state — here the empty one — is `None`, never `some` report. -/
theorem C2_no_report_counterexample :
    allocateDriversReturn geoZero 0 ⟨[], []⟩ = none ∧
    ∀ rep : AllocationReport, allocateDriversReturn geoZero 0 ⟨[], []⟩ ≠ some rep :=
  ⟨rfl, fun _ h => Option.noConfusion h⟩

/-- C2, amended: a pass returns nothing; the counts of the claim exist only
in the log stream: the scanned count is the number of pending rides, there is
one log per scanned ride, the rides logged as assigned are exactly the
committed assignment events and together with the rides logged as unmatched
they account for every scanned ride, and exclusion tallies are produced per
ride per radius iteration (each one accounting for the whole available pool
at that radius), not aggregated across the scan. -/
theorem C2_pass_logs_not_report (geo : Geo) (now : ℚ) (db : DB) :
    allocateDriversReturn geo now db = none ∧
    (allocateDrivers geo now db).2.2.scanned = (pendingRides db).length ∧
    (allocateDrivers geo now db).2.2.rideLogs.length =
      (allocateDrivers geo now db).2.2.scanned ∧
    ((allocateDrivers geo now db).2.2.rideLogs.filter
        (fun l => l.assigned)).length = (allocateDrivers geo now db).2.1.length ∧
    ((allocateDrivers geo now db).2.2.rideLogs.filter
        (fun l => l.assigned)).length +
      ((allocateDrivers geo now db).2.2.rideLogs.filter
        (fun l => !l.assigned)).length =
      (allocateDrivers geo now db).2.2.scanned ∧
    ∀ lg ∈ (allocateDrivers geo now db).2.2.rideLogs, ∀ rl ∈ lg.radii,
      rl.eligible + rl.tally.total = rl.pool := by
  refine ⟨rfl, rfl, ?_, ?_, ?_, ?_⟩
  · exact runRides_logs_length geo now (pendingRides db) db
  · exact runRides_assigned_count geo now (pendingRides db) db
  · rw [filter_assigned_partition]
    exact runRides_logs_length geo now (pendingRides db) db
  · exact runRides_radius_logs geo now (pendingRides db) db

theorem C6_total_ge_base_witness :
    0 ≤ usedDistance geoZero rideC6w ∧ 0 ≤ durationMin rideC6w ∧
    0 ≤ waitingMin rideC6w ∧
    getRate emptyCfg "base_fare" 20 ≤
      (calculateFare geoZero emptyCfg rideC6w).returned :=
  ⟨by norm_num [usedDistance, rideC6w, baseRide],
    by norm_num [durationMin, rideC6w, baseRide],
    by norm_num [waitingMin, rideC6w, baseRide],
    C6_total_ge_base geoZero emptyCfg rideC6w
      (by norm_num [usedDistance, rideC6w, baseRide])
      (by norm_num [durationMin, rideC6w, baseRide])
      (by norm_num [waitingMin, rideC6w, baseRide])
      (by norm_num [getRate, emptyCfg])
      (by norm_num [getRate, emptyCfg])
      (by norm_num [getRate, emptyCfg])⟩

end RiderService
